import Mathlib

/-!
Verification of comper, a template manager with layout composition

A shallow embedding of `comper.go` (package `comper`) and the properties of its
renderer: data merging, the layout field, the two-phase layout render, the
middleware and the template index.

Conventions of the embedding

* A Go `map[string]T` is an association list that holds each key at most once;
  `mapGet` is indexing, `mapSet` is assignment `m[k] = v`, and a `range` loop
  visits the entries of the list.
* A Go `error` result is an `Option String` (`none` is `nil`).
* The pointer receiver `tm *TemplateManager` becomes explicit state passing:
  each method returns the manager it leaves behind.
* The template engine (`text/template`), the file system (`os`,
  `path/filepath`) and the response writer are external to the package; the
  engine and the file system are parameters, the writer is the list of
  operations performed on it.
-/

namespace Comper

/-! ## Values and maps -/

/-- Values of Go type `any` that the package passes around, with the dynamic
type kept apart where the package tests it: `map` is a value whose dynamic type
is exactly `map[string]any`; `namedMap` is a map of a defined type whose
underlying type is `map[string]any` (such as `gin.H`); `strMap` is a
`map[string]string`. -/
inductive Val where
  | nil : Val
  | str (s : String) : Val
  | int (n : Int) : Val
  | bool (b : Bool) : Val
  | map (entries : List (String × Val)) : Val
  | namedMap (typeName : String) (entries : List (String × Val)) : Val
  | strMap (entries : List (String × String)) : Val

/-- Indexing `m[k]` of a Go map, with the presence flag as `Option`. -/
def mapGet {α : Type} : List (String × α) → String → Option α
  | [], _ => none
  | (k', v) :: rest, k => if k' = k then some v else mapGet rest k

/-- Assignment `m[k] = v` on a Go map. -/
def mapSet {α : Type} : List (String × α) → String → α → List (String × α)
  | [], k, v => [(k, v)]
  | (k', v') :: rest, k, v =>
    if k' = k then (k, v) :: rest else (k', v') :: mapSet rest k v

/-- Keys of a Go map. -/
def mapKeys {α : Type} (m : List (String × α)) : List String :=
  m.map Prod.fst

/-- Loop `for k, v := range src { dst[k] = v }`. -/
def mapCopyInto {α : Type} (dst src : List (String × α)) : List (String × α) :=
  src.foldl (fun acc e => mapSet acc e.1 e.2) dst

/-- Type `map[string]any`. -/
abbrev GoMap := List (String × Val)

/-- The entries of a page map, whatever Go map type holds them (none for a
value that is not a map). -/
def pageEntries : Val → GoMap
  | Val.map m => m
  | Val.namedMap _ m => m
  | Val.strMap m => m.map (fun e => (e.1, Val.str e.2))
  | _ => []

/-! ## The template engine (`text/template`) -/

/-- Outcome of executing a template into a writer: the bytes that reached the
writer before the call returned, and the error it returned. The bytes may be
non-empty when the error is set (the engine streams). -/
structure ExecResult where
  out : String
  err : Option String

/-- The parts of `text/template` the package relies on, as a parameter.
`parseTree name text` is the tree of `template.New(name).Parse(text)`;
`isEmptyTree` is `parse.IsEmptyTree`; `execute set tree data` runs a tree that
belongs to the association map `set`. -/
structure Engine where
  Tree : Type
  parseTree : String → String → Except String Tree
  isEmptyTree : Tree → Bool
  execute : List (String × Tree) → Tree → Val → ExecResult

/-- A `*template.Template` handle: its own name and the association map
(`common.tmpl`) it shares with every template of its set. Every template
installed in the map has a tree. -/
structure Template (Tree : Type) where
  name : String
  tmpl : List (String × Tree)

/-- Function `template.New`: a fresh handle, not yet installed in its map. -/
def Template.New {Tree : Type} (name : String) : Template Tree :=
  ⟨name, []⟩

/-- Method `(*Template).Lookup`. -/
def Template.Lookup {Tree : Type} (t : Template Tree) (name : String) : Option Tree :=
  mapGet t.tmpl name

/-- Method `(*Template).AddParseTree` (with `associate`): an existing definition
is kept when the new tree is empty, otherwise the tree is installed under
`name`; the handle returned carries `name` and shares the map. It never fails. -/
def Template.AddParseTree (E : Engine) (t : Template E.Tree) (name : String)
    (tree : E.Tree) : Template E.Tree :=
  match mapGet t.tmpl name with
  | some _ =>
    if E.isEmptyTree tree then ⟨name, t.tmpl⟩ else ⟨name, mapSet t.tmpl name tree⟩
  | none => ⟨name, mapSet t.tmpl name tree⟩

/-- Method `(*Template).ExecuteTemplate`: an unknown name is an error with
nothing written, otherwise the named tree is executed. -/
def Template.ExecuteTemplate (E : Engine) (t : Template E.Tree) (name : String)
    (data : Val) : ExecResult :=
  match t.Lookup name with
  | none =>
    ⟨"", some ("template: no template \"" ++ name ++ "\" associated with template \""
      ++ t.name ++ "\"")⟩
  | some tree => E.execute t.tmpl tree data

/-! ## Observable effects -/

/-- Operations performed on the response writer. -/
inductive WriterOp where
  | write (bytes : String) : WriterOp
  | httpError (msg : String) (code : Nat) : WriterOp
  | ginString (code : Nat) (body : String) : WriterOp

/-- Where an `ExecuteTemplate` call sends its output. -/
inductive Dest where
  | response : Dest
  | buffer : Dest

/-- One `ExecuteTemplate` call: destination, template name, data. -/
structure ExecCall where
  dest : Dest
  name : String
  data : Val

/-- Everything a call can affect outside the manager: the response writer `w`
(operations in order), the process log (lines in order) and the record of
`ExecuteTemplate` calls (in order). -/
structure World where
  w : List WriterOp
  log : List String
  execs : List ExecCall

/-- Call `log.Println` with the operands already joined by blanks. -/
def World.logLine (σ : World) (line : String) : World :=
  { σ with log := σ.log ++ [line] }

/-- Call `http.Error(w, msg, code)`. -/
def World.httpError (σ : World) (msg : String) (code : Nat) : World :=
  { σ with w := σ.w ++ [WriterOp.httpError msg code] }

/-- Call `c.String(code, body)` of the web framework. -/
def World.ginString (σ : World) (code : Nat) (body : String) : World :=
  { σ with w := σ.w ++ [WriterOp.ginString code body] }

/-- Bytes written to the response writer by a template execution. -/
def World.write (σ : World) (bytes : String) : World :=
  { σ with w := σ.w ++ [WriterOp.write bytes] }

/-- Note that `ExecuteTemplate` was called. -/
def World.record (σ : World) (dest : Dest) (name : String) (data : Val) : World :=
  { σ with execs := σ.execs ++ [⟨dest, name, data⟩] }

/-- Bytes that template executions wrote to the response, in order. -/
def writtenBytes : List WriterOp → String
  | [] => ""
  | WriterOp.write b :: rest => b ++ writtenBytes rest
  | _ :: rest => writtenBytes rest

/-- Whether an operation is a 500 error response of `http.Error`. -/
def WriterOp.isHttpError : WriterOp → Bool
  | WriterOp.httpError _ _ => true
  | _ => false

/-! ## The template manager -/

/-- Struct `TemplateManager`. -/
structure TemplateManager (Tree : Type) where
  templates : Template Tree
  webDir : String
  layout : String
  globalData : GoMap

/-- Method `AddGlobalData`. -/
def TemplateManager.AddGlobalData {Tree : Type} (tm : TemplateManager Tree)
    (key : String) (value : Val) : TemplateManager Tree :=
  { tm with globalData := mapSet tm.globalData key value }

/-- Method `SetLayout`: the error result and the manager left behind. -/
def TemplateManager.SetLayout {Tree : Type} (tm : TemplateManager Tree)
    (layout : String) : Option String × TemplateManager Tree :=
  match tm.templates.Lookup layout with
  | none => (some ("template " ++ layout ++ " not found"), tm)
  | some _ => (none, { tm with layout := layout })

/-- Method `mergeData`. The type assertion `pageData.(map[string]any)` holds
for a value whose dynamic type is exactly `map[string]any`, and for no other
(not for `nil`, a defined map type, or a map with another element type). -/
def TemplateManager.mergeData {Tree : Type} (tm : TemplateManager Tree)
    (pageData : Val) : GoMap :=
  let mergedData := mapCopyInto [] tm.globalData
  match pageData with
  | Val.map pd => mapCopyInto mergedData pd
  | _ => mergedData

/-- Method `renderContent`: the string returned, and the world with the call
to `ExecuteTemplate` on the in-memory buffer recorded. -/
def TemplateManager.renderContent (E : Engine) (tm : TemplateManager E.Tree)
    (σ : World) (tmpl : String) (data : Val) : String × World :=
  let r := tm.templates.ExecuteTemplate E tmpl data
  let σ1 := σ.record Dest.buffer tmpl data
  match r.err with
  | some _ => ("", σ1)
  | none => (r.out, σ1)

/-- Method `Render`. -/
def TemplateManager.Render (E : Engine) (tm : TemplateManager E.Tree) (σ : World)
    (tmpl : String) (pageData : Val) (useLayout : Bool) :
    TemplateManager E.Tree × World :=
  let data := tm.mergeData pageData
  if useLayout then
    if tm.layout = "" then
      (tm, (σ.logLine "Error rendering layout template: no layout set").httpError
        "Error rendering layout template" 500)
    else
      let c := tm.renderContent E σ tmpl (Val.map data)
      let ctx := Val.map [("Content", Val.str c.1), ("Data", Val.map data)]
      let r := tm.templates.ExecuteTemplate E tm.layout ctx
      let σ2 := (c.2.record Dest.response tm.layout ctx).write r.out
      match r.err with
      | some err =>
        (tm, (σ2.logLine ("Error rendering layout template: " ++ err)).httpError
          "Error rendering layout template" 500)
      | none => (tm, σ2)
  else
    let r := tm.templates.ExecuteTemplate E tmpl (Val.map data)
    let σ1 := (σ.record Dest.response tmpl (Val.map data)).write r.out
    match r.err with
    | some err =>
      (tm, (σ1.logLine ("Error rendering template: " ++ err)).httpError
        "Error rendering template" 500)
    | none => (tm, σ1)

/-- Method `RenderWithLayout`. -/
def TemplateManager.RenderWithLayout (E : Engine) (tm : TemplateManager E.Tree)
    (σ : World) (tmpl : String) (pageData : Val) (layout : String) :
    TemplateManager E.Tree × World :=
  match tm.SetLayout layout with
  | (some err, tm1) =>
    (tm1, (σ.logLine ("Error setting layout: " ++ err)).httpError
      "Error setting layout" 500)
  | (none, tm1) =>
    let r := tm1.Render E σ tmpl pageData true
    match r.1.SetLayout "" with
    | (some err, tm2) =>
      if err ≠ "template  not found" then
        (tm2, (r.2.logLine ("Error unsetting layout: " ++ err)).httpError
          "Error unsetting layout" 500)
      else (tm2, r.2)
    | (none, tm2) => (tm2, r.2)

/-! ## The middleware -/

/-- What a request handler can see and change: the context keys (`c.Keys`),
the shared template manager, and the world (with the response writer). -/
structure ReqState (Tree : Type) where
  keys : GoMap
  tm : TemplateManager Tree
  world : World

/-- Handler returned by `ApplyLayout(templateManager, layout)`, run on a request
whose remaining pipeline (`c.Next()`) is `next`. The type assertion
`tmpl.(string)` fails (a panic in Go) when the value is not a string. -/
def ApplyLayout (E : Engine) (layout : String)
    (next : ReqState E.Tree → ReqState E.Tree) (s : ReqState E.Tree) :
    Except String (ReqState E.Tree) :=
  let s1 := next s
  match mapGet s1.keys "content" with
  | none => Except.ok { s1 with world := s1.world.ginString 500 "content not set" }
  | some tmpl =>
    let data := (mapGet s1.keys "data").getD Val.nil
    match tmpl with
    | Val.str name =>
      let r := s1.tm.RenderWithLayout E s1.world name data layout
      Except.ok { s1 with tm := r.1, world := r.2 }
    | _ => Except.error "interface conversion: value is not a string"

/-! ## The template index -/

/-- The part of `os.FileInfo` that is read. -/
structure FileInfo where
  isDir : Bool

/-- One call that `filepath.Walk` makes to its callback. -/
structure Visit where
  path : String
  info : FileInfo
  err : Option String

/-- The file system and `path/filepath`, as a parameter. `walk root` lists the
callback invocations of `filepath.Walk(root, fn)` for a callback that keeps
returning `nil`; `separator` is `filepath.Separator`. -/
structure FS where
  separator : Char
  walk : String → List Visit
  readFile : String → Except String String
  rel : String → String → Except String String
  join : String → String → String

/-- Function `os.IsPathSeparator`. -/
def FS.IsPathSeparator (fs : FS) (c : Char) : Bool :=
  c = '/' || c = fs.separator

/-- Loop of `filepath.Ext`, from the last character backwards; `suffix` is the
part of the path already passed. -/
def FS.extScan (fs : FS) : List Char → List Char → String
  | [], _ => ""
  | c :: before, suffix =>
    if fs.IsPathSeparator c then ""
    else if c = '.' then String.mk (c :: suffix)
    else FS.extScan fs before (c :: suffix)

/-- Function `filepath.Ext`. -/
def FS.Ext (fs : FS) (path : String) : String :=
  fs.extScan path.data.reverse []

/-- Function `filepath.ToSlash`. -/
def FS.ToSlash (fs : FS) (path : String) : String :=
  if fs.separator = '/' then path
  else String.mk (path.data.map (fun c => if c = fs.separator then '/' else c))

/-- Function `indexTemplate`: the template (name and tree) and the error. -/
def indexTemplate (E : Engine) (fs : FS) (startPath name : String) (info : FileInfo)
    (err : Option String) : Option (String × E.Tree) × Option String :=
  match err with
  | some e => (none, some e)
  | none =>
    if !info.isDir && fs.Ext name = ".gohtml" then
      match fs.rel startPath name with
      | Except.error e => (none, some e)
      | Except.ok rel =>
        let rel := fs.ToSlash rel
        match fs.readFile name with
        | Except.error e => (none, some e)
        | Except.ok content =>
          match E.parseTree rel content with
          | Except.error e => (none, some e)
          | Except.ok tree => (some (rel, tree), none)
    else (none, none)

/-- The walk of `indexTemplates` over the remaining visits: the callback adds
the template it gets, and the first error it returns stops the walk. -/
def walkFrom (E : Engine) (fs : FS) (startPath : String) :
    List Visit → Template E.Tree → Template E.Tree × Option String
  | [], templates => (templates, none)
  | v :: rest, templates =>
    match indexTemplate E fs startPath v.path v.info v.err with
    | (some tmpl, _) =>
      walkFrom E fs startPath rest (templates.AddParseTree E tmpl.1 tmpl.2)
    | (none, some e) => (templates, some e)
    | (none, none) => walkFrom E fs startPath rest templates

/-- Function `indexTemplates`. -/
def indexTemplates (E : Engine) (fs : FS) (startPath : String) :
    Template E.Tree × Option String :=
  walkFrom E fs startPath (fs.walk startPath) (Template.New "")

/-- Function `NewTemplateManager`. -/
def NewTemplateManager (E : Engine) (fs : FS) (webDir : String) (globalData : GoMap) :
    Except String (TemplateManager E.Tree) :=
  match indexTemplates E fs (fs.join webDir "templates") with
  | (_, some err) => Except.error ("failed to index templates: " ++ err)
  | (templates, none) =>
    Except.ok { templates := templates, webDir := webDir, layout := "",
                globalData := globalData }

/-- Whether `indexTemplate` takes a visited entry for a template file: not a
directory, and extension `.gohtml`. -/
def isTemplateFile (fs : FS) (v : Visit) : Bool :=
  !v.info.isDir && fs.Ext v.path = ".gohtml"

/-- Slash-normalized form of a path, in the words of the specification: every
occurrence of the host path separator is a `/`, every other character is kept. -/
def slashNormalized (fs : FS) (path : String) : String :=
  String.mk (path.data.map (fun c => if c = fs.separator then '/' else c))

/-- The slash-normalized path of a visited entry relative to the root (empty
when the path cannot be made relative). -/
def templateName (fs : FS) (startPath : String) (v : Visit) : String :=
  match fs.rel startPath v.path with
  | Except.ok rel => slashNormalized fs rel
  | Except.error _ => ""

/-! ## A concrete engine, file system and site, for running the model -/

/-- Instructions of the sample engine. -/
inductive Instr where
  | text (s : String) : Instr
  | field (key : String) : Instr
  | fail (msg : String) : Instr

/-- Split a character list at every `|`; `cur` is the segment being read,
reversed. -/
def splitBar : List Char → List Char → List (List Char)
  | [], cur => [cur.reverse]
  | c :: rest, cur =>
    if c = '|' then cur.reverse :: splitBar rest [] else splitBar rest (c :: cur)

/-- One segment of a sample template: `?` does not parse, `!` fails when
executed, `.key` prints a field, anything else is literal text. -/
def parseSegment : List Char → Except String Instr
  | ['?'] => Except.error "unexpected ?"
  | ['!'] => Except.ok (Instr.fail "execution failed")
  | '.' :: key => Except.ok (Instr.field (String.mk key))
  | seg => Except.ok (Instr.text (String.mk seg))

/-- Parse every segment, stopping at the first that does not parse. -/
def parseSegments : List (List Char) → Except String (List Instr)
  | [] => Except.ok []
  | seg :: rest =>
    match parseSegment seg with
    | Except.error e => Except.error e
    | Except.ok i =>
      match parseSegments rest with
      | Except.error e => Except.error e
      | Except.ok is => Except.ok (i :: is)

/-- Run the instructions of a sample template, appending to `out`. -/
def runInstrs (data : Val) : List Instr → String → ExecResult
  | [], out => ⟨out, none⟩
  | Instr.text s :: rest, out => runInstrs data rest (out ++ s)
  | Instr.fail msg :: _, out => ⟨out, some msg⟩
  | Instr.field key :: rest, out =>
    match data with
    | Val.map m =>
      match mapGet m key with
      | some (Val.str s) => runInstrs data rest (out ++ s)
      | _ => runInstrs data rest (out ++ "<no value>")
    | _ => ⟨out, some ("cannot evaluate field " ++ key)⟩

/-- The sample engine. -/
def sampleEngine : Engine where
  Tree := List Instr
  parseTree := fun _ text => parseSegments (splitBar text.data [])
  isEmptyTree := fun t => t.isEmpty
  execute := fun _ tree data => runInstrs data tree ""

/-- A relative path as `filepath.Rel` gives it for a target at or below the
base, with separator `sep`. -/
def sampleRel (sep : Char) (base targ : String) : Except String String :=
  if targ = base then Except.ok "."
  else if (base.data ++ [sep]).isPrefixOf targ.data then
    Except.ok (String.mk (targ.data.drop (base.data.length + 1)))
  else Except.error "Rel: can't make path relative"

/-- Files of the sample site. -/
def sampleFiles : List (String × String) :=
  [("web/templates/base.gohtml", "<html>|.Content|</html>"),
   ("web/templates/home.gohtml", "Hello |.Name"),
   ("web/templates/pages/broken.gohtml", "partial|!|rest"),
   ("web/templates/readme.txt", "?")]

/-- The sample file system: a Unix tree under `web/templates`. -/
def sampleFS : FS where
  separator := '/'
  walk := fun root =>
    if root = "web/templates" then
      [⟨"web/templates", ⟨true⟩, none⟩,
       ⟨"web/templates/base.gohtml", ⟨false⟩, none⟩,
       ⟨"web/templates/home.gohtml", ⟨false⟩, none⟩,
       ⟨"web/templates/pages", ⟨true⟩, none⟩,
       ⟨"web/templates/pages/broken.gohtml", ⟨false⟩, none⟩,
       ⟨"web/templates/readme.txt", ⟨false⟩, none⟩]
    else [⟨root, ⟨false⟩, some "lstat: no such file or directory"⟩]
  readFile := fun path =>
    match mapGet sampleFiles path with
    | some text => Except.ok text
    | none => Except.error "open: no such file or directory"
  rel := sampleRel '/'
  join := fun a b => a ++ "/" ++ b

/-- Files of the same kind of site on a host whose separator is `\`. -/
def sampleWindowsFiles : List (String × String) :=
  [("web\\templates\\base.gohtml", "<html>|.Content|</html>"),
   ("web\\templates\\pages\\about.gohtml", "About |.Name"),
   ("web\\templates\\pages\\sub\\deep.gohtml", "deep"),
   ("web\\templates\\notes.txt", "?")]

/-- A sample file system with separator `\`: a tree under `web\templates`. -/
def sampleWindowsFS : FS where
  separator := '\\'
  walk := fun root =>
    if root = "web\\templates" then
      [⟨"web\\templates", ⟨true⟩, none⟩,
       ⟨"web\\templates\\base.gohtml", ⟨false⟩, none⟩,
       ⟨"web\\templates\\notes.txt", ⟨false⟩, none⟩,
       ⟨"web\\templates\\pages", ⟨true⟩, none⟩,
       ⟨"web\\templates\\pages\\about.gohtml", ⟨false⟩, none⟩,
       ⟨"web\\templates\\pages\\sub", ⟨true⟩, none⟩,
       ⟨"web\\templates\\pages\\sub\\deep.gohtml", ⟨false⟩, none⟩]
    else [⟨root, ⟨false⟩, some "lstat: no such file or directory"⟩]
  readFile := fun path =>
    match mapGet sampleWindowsFiles path with
    | some text => Except.ok text
    | none => Except.error "open: no such file or directory"
  rel := sampleRel '\\'
  join := fun a b => a ++ "\\" ++ b

/-- Template set of the sample site, as `indexTemplates` builds it. -/
def sampleTemplates : Template sampleEngine.Tree :=
  (indexTemplates sampleEngine sampleFS "web/templates").1

/-- Manager of the sample site with global data `Name = World`, no layout set. -/
def sampleManager : TemplateManager sampleEngine.Tree :=
  { templates := sampleTemplates, webDir := "web", layout := "",
    globalData := [("Name", Val.str "World")] }

/-- Page data of the defined map type `gin.H`: it overrides `Name` and adds
`Title`. -/
def samplePageH : Val :=
  Val.namedMap "gin.H" [("Name", Val.str "Page"), ("Title", Val.str "Home")]

/-- A world in which nothing has happened yet. -/
def emptyWorld : World :=
  ⟨[], [], []⟩

/-- The sample manager with layout `base.gohtml` configured. -/
def sampleManagerWithLayout : TemplateManager sampleEngine.Tree :=
  { sampleManager with layout := "base.gohtml" }

/-- A request whose context holds nothing yet. -/
def sampleRequest : ReqState sampleEngine.Tree :=
  { keys := [], tm := sampleManager, world := emptyWorld }

/-- A downstream pipeline that stores `data` in the context and never sets
`content`. -/
def sampleNextWithoutContent (s : ReqState sampleEngine.Tree) : ReqState sampleEngine.Tree :=
  { s with keys := mapSet s.keys "data" (Val.map [("Title", Val.str "Home")]) }

/-! ## Lemmas on maps -/

theorem mapGet_mapSet_same {α : Type} (m : List (String × α)) (k : String) (v : α) :
    mapGet (mapSet m k v) k = some v := by
  induction m with
  | nil => simp [mapSet, mapGet]
  | cons e rest ih =>
    obtain ⟨k', v'⟩ := e
    by_cases h : k' = k
    · simp [mapSet, mapGet, h]
    · simp [mapSet, mapGet, h, ih]

theorem mapGet_mapSet_other {α : Type} (m : List (String × α)) (k k' : String) (v : α)
    (hne : k ≠ k') : mapGet (mapSet m k v) k' = mapGet m k' := by
  induction m with
  | nil => simp [mapSet, mapGet, hne]
  | cons e rest ih =>
    obtain ⟨k0, v0⟩ := e
    by_cases h : k0 = k
    · subst h
      simp [mapSet, mapGet, hne]
    · by_cases h' : k0 = k'
      · subst h'
        simp [mapSet, mapGet, h]
      · simp [mapSet, mapGet, h, h', ih]

theorem mem_mapKeys_mapSet {α : Type} (m : List (String × α)) (k k' : String) (v : α) :
    k' ∈ mapKeys (mapSet m k v) ↔ k' = k ∨ k' ∈ mapKeys m := by
  induction m with
  | nil => simp [mapSet, mapKeys]
  | cons e rest ih =>
    obtain ⟨k0, v0⟩ := e
    by_cases h : k0 = k
    · subst h
      simp [mapSet, mapKeys]
    · have ih' : k' ∈ List.map Prod.fst (mapSet rest k v) ↔
          k' = k ∨ k' ∈ List.map Prod.fst rest := ih
      simp only [mapSet, h, if_false, mapKeys, List.map_cons, List.mem_cons, ih']
      tauto

theorem mapSet_of_not_mem {α : Type} (m : List (String × α)) (k : String) (v : α)
    (h : k ∉ mapKeys m) : mapSet m k v = m ++ [(k, v)] := by
  induction m with
  | nil => simp [mapSet]
  | cons e rest ih =>
    obtain ⟨k0, v0⟩ := e
    have h0 : k0 ≠ k := by
      intro hk
      exact h (by simp [mapKeys, hk])
    have hr : k ∉ mapKeys rest := by
      intro hk
      exact h (by simp only [mapKeys, List.map_cons, List.mem_cons]; exact Or.inr hk)
    simp [mapSet, h0, ih hr]

theorem mapKeys_mapSet_of_mem {α : Type} (m : List (String × α)) (k : String) (v : α)
    (h : k ∈ mapKeys m) : mapKeys (mapSet m k v) = mapKeys m := by
  induction m with
  | nil => simp [mapKeys] at h
  | cons e rest ih =>
    obtain ⟨k0, v0⟩ := e
    by_cases h0 : k0 = k
    · subst h0
      simp [mapSet, mapKeys]
    · have hr : k ∈ mapKeys rest := by
        simp only [mapKeys, List.map_cons, List.mem_cons] at h
        rcases h with h | h
        · exact absurd h.symm h0
        · exact h
      have ih' : List.map Prod.fst (mapSet rest k v) = List.map Prod.fst rest := ih hr
      simp [mapSet, h0, mapKeys, ih']

theorem mapKeys_mapSet_nodup {α : Type} (m : List (String × α)) (k : String) (v : α)
    (h : (mapKeys m).Nodup) : (mapKeys (mapSet m k v)).Nodup := by
  by_cases hk : k ∈ mapKeys m
  · rw [mapKeys_mapSet_of_mem m k v hk]
    exact h
  · rw [mapSet_of_not_mem m k v hk]
    simp only [mapKeys, List.map_append, List.map_cons, List.map_nil]
    exact List.Nodup.append h (List.nodup_singleton k) (by
      intro a ha hb
      simp only [List.mem_singleton] at hb
      subst hb
      exact hk ha)

theorem mapGet_eq_none_of_not_mem {α : Type} (m : List (String × α)) (k : String)
    (h : k ∉ mapKeys m) : mapGet m k = none := by
  induction m with
  | nil => rfl
  | cons e rest ih =>
    obtain ⟨k0, v0⟩ := e
    have h0 : k0 ≠ k := by
      intro hk
      exact h (by simp [mapKeys, hk])
    have hr : k ∉ mapKeys rest := by
      intro hk
      exact h (by simp only [mapKeys, List.map_cons, List.mem_cons]; exact Or.inr hk)
    simp [mapGet, h0, ih hr]

theorem mapGet_isSome_of_mem {α : Type} (m : List (String × α)) (k : String)
    (h : k ∈ mapKeys m) : ∃ v, mapGet m k = some v := by
  induction m with
  | nil => simp [mapKeys] at h
  | cons e rest ih =>
    obtain ⟨k0, v0⟩ := e
    by_cases h0 : k0 = k
    · exact ⟨v0, by simp [mapGet, h0]⟩
    · have hr : k ∈ mapKeys rest := by
        simp only [mapKeys, List.map_cons, List.mem_cons] at h
        rcases h with h | h
        · exact absurd h.symm h0
        · exact h
      obtain ⟨v, hv⟩ := ih hr
      exact ⟨v, by simp [mapGet, h0, hv]⟩

theorem mem_mapKeys_mapCopyInto {α : Type} (src dst : List (String × α)) (k : String) :
    k ∈ mapKeys (mapCopyInto dst src) ↔ k ∈ mapKeys dst ∨ k ∈ mapKeys src := by
  induction src generalizing dst with
  | nil => simp [mapCopyInto, mapKeys]
  | cons e rest ih =>
    have step : mapCopyInto dst (e :: rest) = mapCopyInto (mapSet dst e.1 e.2) rest := rfl
    rw [step, ih, mem_mapKeys_mapSet]
    simp only [mapKeys, List.map_cons, List.mem_cons]
    tauto

theorem mapKeys_mapCopyInto_nodup {α : Type} (src dst : List (String × α))
    (h : (mapKeys dst).Nodup) : (mapKeys (mapCopyInto dst src)).Nodup := by
  induction src generalizing dst with
  | nil => exact h
  | cons e rest ih =>
    have step : mapCopyInto dst (e :: rest) = mapCopyInto (mapSet dst e.1 e.2) rest := rfl
    rw [step]
    exact ih _ (mapKeys_mapSet_nodup dst e.1 e.2 h)

theorem mapGet_mapCopyInto_of_not_mem {α : Type} (src dst : List (String × α)) (k : String)
    (h : k ∉ mapKeys src) : mapGet (mapCopyInto dst src) k = mapGet dst k := by
  induction src generalizing dst with
  | nil => rfl
  | cons e rest ih =>
    have step : mapCopyInto dst (e :: rest) = mapCopyInto (mapSet dst e.1 e.2) rest := rfl
    have h0 : e.1 ≠ k := by
      intro hk
      exact h (by simp [mapKeys, hk])
    have hr : k ∉ mapKeys rest := by
      intro hk
      exact h (by simp only [mapKeys, List.map_cons, List.mem_cons]; exact Or.inr hk)
    rw [step, ih _ hr, mapGet_mapSet_other dst e.1 k e.2 h0]

theorem mapGet_mapCopyInto_of_mem {α : Type} (src dst : List (String × α)) (k : String)
    (hnd : (mapKeys src).Nodup) (h : k ∈ mapKeys src) :
    mapGet (mapCopyInto dst src) k = mapGet src k := by
  induction src generalizing dst with
  | nil => simp [mapKeys] at h
  | cons e rest ih =>
    obtain ⟨k0, v0⟩ := e
    have step : mapCopyInto dst ((k0, v0) :: rest) = mapCopyInto (mapSet dst k0 v0) rest := rfl
    simp only [mapKeys, List.map_cons, List.nodup_cons] at hnd
    by_cases h0 : k0 = k
    · subst h0
      rw [step, mapGet_mapCopyInto_of_not_mem rest _ k0 hnd.1, mapGet_mapSet_same]
      simp [mapGet]
    · have hr : k ∈ mapKeys rest := by
        simp only [mapKeys, List.map_cons, List.mem_cons] at h
        rcases h with h | h
        · exact absurd h.symm h0
        · exact h
      rw [step, ih _ hnd.2 hr]
      simp [mapGet, h0]

/-! ## Data merging -/

theorem mapCopyInto_eq_append {α : Type} (src dst : List (String × α))
    (h : (mapKeys (dst ++ src)).Nodup) : mapCopyInto dst src = dst ++ src := by
  induction src generalizing dst with
  | nil => simp [mapCopyInto]
  | cons e rest ih =>
    have step : mapCopyInto dst (e :: rest) = mapCopyInto (mapSet dst e.1 e.2) rest := rfl
    have hnew : e.1 ∉ mapKeys dst := by
      intro hmem
      simp only [mapKeys, List.map_append, List.map_cons] at h
      exact (List.nodup_append.mp h).2.2 hmem (List.mem_cons_self _ _)
    have hset : mapSet dst e.1 e.2 = dst ++ [e] := mapSet_of_not_mem dst e.1 e.2 hnew
    rw [step, hset, ih (dst ++ [e]) (by simpa using h)]
    simp

/-- When the type assertion fails, `mergeData` is the copy of the global map. -/
theorem mergeData_of_other_type {Tree : Type} (tm : TemplateManager Tree) (other : Val)
    (hother : ∀ m, other ≠ Val.map m) :
    tm.mergeData other = mapCopyInto [] tm.globalData := by
  cases other with
  | map m => exact absurd rfl (hother m)
  | nil => rfl
  | str s => rfl
  | int n => rfl
  | bool b => rfl
  | namedMap n m => rfl
  | strMap m => rfl

/-- C1, amended: for a manager holding global map `G` (a Go map: each key held
once). When the page data has dynamic type exactly `map[string]any`, with map
`P`, `mergeData` has exactly the keys of `G` and of `P`, its value at every key
of `P` is the value in `P`, its value at every key of `G` that is not in `P` is
the value in `G`, and it is again a map. When the page data has any other
dynamic type (nil, a defined map type such as `gin.H`, a map with another
element type, a value that is no map), `mergeData` returns the entries of `G`
and nothing else. -/
theorem mergeData_keys_and_values {Tree : Type} (tm : TemplateManager Tree) (P : GoMap)
    (other : Val)
    (hG : (mapKeys tm.globalData).Nodup) (hP : (mapKeys P).Nodup)
    (hother : ∀ m, other ≠ Val.map m) :
    ((∀ k, k ∈ mapKeys (tm.mergeData (Val.map P)) ↔
        k ∈ mapKeys tm.globalData ∨ k ∈ mapKeys P) ∧
    (∀ k, k ∈ mapKeys P → mapGet (tm.mergeData (Val.map P)) k = mapGet P k) ∧
    (∀ k, k ∈ mapKeys tm.globalData → k ∉ mapKeys P →
        mapGet (tm.mergeData (Val.map P)) k = mapGet tm.globalData k) ∧
    (mapKeys (tm.mergeData (Val.map P))).Nodup) ∧
    (tm.mergeData other = tm.globalData ∧
    mapKeys (tm.mergeData other) = mapKeys tm.globalData ∧
    (∀ k, mapGet (tm.mergeData other) k = mapGet tm.globalData k)) := by
  have hm : tm.mergeData (Val.map P) = mapCopyInto (mapCopyInto [] tm.globalData) P := rfl
  have ho : tm.mergeData other = tm.globalData := by
    rw [mergeData_of_other_type tm other hother]
    simpa using mapCopyInto_eq_append tm.globalData [] (by simpa using hG)
  refine ⟨?_, ho, by rw [ho], fun k => by rw [ho]⟩
  rw [hm]
  refine ⟨?_, ?_, ?_, ?_⟩
  · intro k
    rw [mem_mapKeys_mapCopyInto, mem_mapKeys_mapCopyInto]
    simp [mapKeys]
  · intro k hk
    exact mapGet_mapCopyInto_of_mem P _ k hP hk
  · intro k hk hnk
    rw [mapGet_mapCopyInto_of_not_mem P _ k hnk]
    exact mapGet_mapCopyInto_of_mem tm.globalData [] k hG hk
  · exact mapKeys_mapCopyInto_nodup P _
      (mapKeys_mapCopyInto_nodup tm.globalData [] (by simp [mapKeys]))

/-- Witness of C1, amended, on the sample manager (global `Name`): a page map of
type `map[string]any` that overrides `Name` and adds `Title`, and the same
entries held in a `gin.H`. -/
theorem mergeData_keys_and_values_witness :
    (mapKeys sampleManager.globalData).Nodup ∧
    (mapKeys [("Name", Val.str "Page"), ("Title", Val.str "Home")]).Nodup ∧
    (∀ m, samplePageH ≠ Val.map m) ∧
    ((∀ k, k ∈ mapKeys (sampleManager.mergeData
          (Val.map [("Name", Val.str "Page"), ("Title", Val.str "Home")])) ↔
        k ∈ mapKeys sampleManager.globalData ∨
        k ∈ mapKeys [("Name", Val.str "Page"), ("Title", Val.str "Home")]) ∧
    (∀ k, k ∈ mapKeys [("Name", Val.str "Page"), ("Title", Val.str "Home")] →
        mapGet (sampleManager.mergeData
          (Val.map [("Name", Val.str "Page"), ("Title", Val.str "Home")])) k =
        mapGet [("Name", Val.str "Page"), ("Title", Val.str "Home")] k) ∧
    (∀ k, k ∈ mapKeys sampleManager.globalData →
        k ∉ mapKeys [("Name", Val.str "Page"), ("Title", Val.str "Home")] →
        mapGet (sampleManager.mergeData
          (Val.map [("Name", Val.str "Page"), ("Title", Val.str "Home")])) k =
        mapGet sampleManager.globalData k) ∧
    (mapKeys (sampleManager.mergeData
      (Val.map [("Name", Val.str "Page"), ("Title", Val.str "Home")]))).Nodup) ∧
    (sampleManager.mergeData samplePageH = sampleManager.globalData ∧
    mapKeys (sampleManager.mergeData samplePageH) = mapKeys sampleManager.globalData ∧
    (∀ k, mapGet (sampleManager.mergeData samplePageH) k
      = mapGet sampleManager.globalData k)) :=
  ⟨by decide, by decide, fun m h => by simp [samplePageH] at h,
   (mergeData_keys_and_values sampleManager
     [("Name", Val.str "Page"), ("Title", Val.str "Home")] samplePageH
     (by decide) (by decide) (fun m h => by simp [samplePageH] at h)).1,
   (mergeData_keys_and_values sampleManager
     [("Name", Val.str "Page"), ("Title", Val.str "Home")] samplePageH
     (by decide) (by decide) (fun m h => by simp [samplePageH] at h)).2⟩

/-- C1 as stated fails for a page map that is not of type `map[string]any`:
for the `gin.H` page map with `Name = Page` and `Title = Home`, on the sample
manager with global `Name = World`, the merged map has no key `Title` (its keys
are not the union), and its value at `Name` is the global `World`, not the
page value `Page`. -/
theorem mergeData_named_page_map_not_merged :
    ("Title" ∈ mapKeys (pageEntries samplePageH) ∧
      "Title" ∉ mapKeys (sampleManager.mergeData samplePageH)) ∧
    ¬ (∀ k, k ∈ mapKeys (sampleManager.mergeData samplePageH) ↔
        k ∈ mapKeys sampleManager.globalData ∨ k ∈ mapKeys (pageEntries samplePageH)) ∧
    (mapGet (pageEntries samplePageH) "Name" = some (Val.str "Page") ∧
      mapGet (sampleManager.mergeData samplePageH) "Name" = some (Val.str "World")) ∧
    ¬ (∀ k, k ∈ mapKeys (pageEntries samplePageH) →
        mapGet (sampleManager.mergeData samplePageH) k
          = mapGet (pageEntries samplePageH) k) := by
  refine ⟨⟨by decide, by decide⟩, ?_, ⟨by rfl, by rfl⟩, ?_⟩
  · intro h
    have hin : "Title" ∈ mapKeys (sampleManager.mergeData samplePageH) :=
      (h "Title").mpr (Or.inr (by decide))
    exact absurd hin (by decide)
  · intro h
    have h1 := h "Name" (by decide)
    have h2 : mapGet (sampleManager.mergeData samplePageH) "Name"
        = some (Val.str "World") := by rfl
    have h3 : mapGet (pageEntries samplePageH) "Name" = some (Val.str "Page") := by rfl
    rw [h2, h3] at h1
    simp at h1

/-! ## The layout field -/

theorem SetLayout_of_absent {Tree : Type} (tm : TemplateManager Tree) (name : String)
    (h : name ∉ mapKeys tm.templates.tmpl) :
    tm.SetLayout name = (some ("template " ++ name ++ " not found"), tm) := by
  simp [TemplateManager.SetLayout, Template.Lookup, mapGet_eq_none_of_not_mem _ _ h]

theorem SetLayout_of_present {Tree : Type} (tm : TemplateManager Tree) (name : String)
    (h : name ∈ mapKeys tm.templates.tmpl) :
    tm.SetLayout name = (none, { tm with layout := name }) := by
  obtain ⟨v, hv⟩ := mapGet_isSome_of_mem _ _ h
  simp [TemplateManager.SetLayout, Template.Lookup, hv]

/-- With no template of the empty name (the state of every template set of
relative paths), `SetLayout("")` returns the error `template  not found` and
changes nothing. -/
theorem SetLayout_empty_name_fails {Tree : Type} (tm : TemplateManager Tree)
    (h : "" ∉ mapKeys tm.templates.tmpl) :
    tm.SetLayout "" = (some "template  not found", tm) := by
  rw [SetLayout_of_absent tm "" h]
  rfl

/-- C2, evaluated on the sample site (template set built by `indexTemplates`)
with Current Layout `base.gohtml`: `SetLayout("")` returns the error
`template  not found`, Current Layout stays `base.gohtml`, and the next
`Render` with `useLayout = true` renders through that layout instead of
failing with the no-layout error. -/
theorem SetLayout_empty_name_on_sample :
    ((sampleManager.SetLayout "base.gohtml").2.SetLayout "").1
      = some "template  not found" ∧
    ((sampleManager.SetLayout "base.gohtml").2.SetLayout "").2.layout = "base.gohtml" ∧
    ((((sampleManager.SetLayout "base.gohtml").2.SetLayout "").2.Render sampleEngine
      emptyWorld "home.gohtml" Val.nil true).2.w
      = [WriterOp.write "<html>Hello World</html>"]) :=
  ⟨by decide, by decide, by rfl⟩

/-- C4: for every manager and every non-empty name that is absent from the
template set, `SetLayout(name)` returns the error `template <name> not found`
and leaves the manager (Current Layout, template set, global data, web
directory) exactly as it was. -/
theorem SetLayout_absent_name_error {Tree : Type} (tm : TemplateManager Tree)
    (name : String) (_hne : name ≠ "") (habs : name ∉ mapKeys tm.templates.tmpl) :
    (tm.SetLayout name).1 = some ("template " ++ name ++ " not found") ∧
    (tm.SetLayout name).2 = tm ∧
    (tm.SetLayout name).2.layout = tm.layout ∧
    (tm.SetLayout name).2.templates = tm.templates ∧
    (tm.SetLayout name).2.globalData = tm.globalData := by
  rw [SetLayout_of_absent tm name habs]
  exact ⟨rfl, rfl, rfl, rfl, rfl⟩

/-- Witness of C4: `missing.gohtml` on the sample manager with layout
`base.gohtml` set. -/
theorem SetLayout_absent_name_error_witness :
    "missing.gohtml" ≠ "" ∧
    "missing.gohtml" ∉ mapKeys (sampleManager.SetLayout "base.gohtml").2.templates.tmpl ∧
    (((sampleManager.SetLayout "base.gohtml").2.SetLayout "missing.gohtml").1
        = some ("template " ++ "missing.gohtml" ++ " not found") ∧
      ((sampleManager.SetLayout "base.gohtml").2.SetLayout "missing.gohtml").2
        = (sampleManager.SetLayout "base.gohtml").2 ∧
      ((sampleManager.SetLayout "base.gohtml").2.SetLayout "missing.gohtml").2.layout
        = (sampleManager.SetLayout "base.gohtml").2.layout ∧
      ((sampleManager.SetLayout "base.gohtml").2.SetLayout "missing.gohtml").2.templates
        = (sampleManager.SetLayout "base.gohtml").2.templates ∧
      ((sampleManager.SetLayout "base.gohtml").2.SetLayout "missing.gohtml").2.globalData
        = (sampleManager.SetLayout "base.gohtml").2.globalData) :=
  ⟨by decide, by decide,
   SetLayout_absent_name_error (sampleManager.SetLayout "base.gohtml").2 "missing.gohtml"
     (by decide) (by decide)⟩

/-! ## Rendering -/

/-- `Render` never changes the manager. -/
theorem Render_fst (E : Engine) (tm : TemplateManager E.Tree) (σ : World) (tmpl : String)
    (pageData : Val) (useLayout : Bool) :
    (tm.Render E σ tmpl pageData useLayout).1 = tm := by
  unfold TemplateManager.Render
  cases useLayout with
  | true =>
    by_cases hl : tm.layout = ""
    · simp [hl]
    · simp only [if_true, hl, if_false]
      split <;> rfl
  | false =>
    simp only [Bool.false_eq_true, if_false]
    split <;> rfl

/-- The layout branch of `Render`, spelled out. -/
theorem Render_with_layout_eq (E : Engine) (tm : TemplateManager E.Tree) (σ : World)
    (tmpl : String) (pageData : Val) (hl : tm.layout ≠ "") :
    tm.Render E σ tmpl pageData true =
      (tm,
        match (tm.templates.ExecuteTemplate E tm.layout
          (Val.map [("Content",
              Val.str (tm.renderContent E σ tmpl (Val.map (tm.mergeData pageData))).1),
            ("Data", Val.map (tm.mergeData pageData))])).err with
        | some err =>
          ((((tm.renderContent E σ tmpl (Val.map (tm.mergeData pageData))).2.record
              Dest.response tm.layout
              (Val.map [("Content",
                  Val.str (tm.renderContent E σ tmpl (Val.map (tm.mergeData pageData))).1),
                ("Data", Val.map (tm.mergeData pageData))])).write
              (tm.templates.ExecuteTemplate E tm.layout
                (Val.map [("Content",
                    Val.str (tm.renderContent E σ tmpl
                      (Val.map (tm.mergeData pageData))).1),
                  ("Data", Val.map (tm.mergeData pageData))])).out).logLine
            ("Error rendering layout template: " ++ err)).httpError
            "Error rendering layout template" 500
        | none =>
          ((tm.renderContent E σ tmpl (Val.map (tm.mergeData pageData))).2.record
              Dest.response tm.layout
              (Val.map [("Content",
                  Val.str (tm.renderContent E σ tmpl (Val.map (tm.mergeData pageData))).1),
                ("Data", Val.map (tm.mergeData pageData))])).write
              (tm.templates.ExecuteTemplate E tm.layout
                (Val.map [("Content",
                    Val.str (tm.renderContent E σ tmpl
                      (Val.map (tm.mergeData pageData))).1),
                  ("Data", Val.map (tm.mergeData pageData))])).out) := by
  unfold TemplateManager.Render
  simp only [if_true, hl, if_false]
  split <;> rfl

/-- What `renderContent` records, whatever the outcome. -/
theorem renderContent_snd (E : Engine) (tm : TemplateManager E.Tree) (σ : World)
    (tmpl : String) (data : Val) :
    (tm.renderContent E σ tmpl data).2 = σ.record Dest.buffer tmpl data := by
  unfold TemplateManager.renderContent
  cases herr : (tm.templates.ExecuteTemplate E tmpl data).err <;> simp [herr]

theorem renderContent_of_success (E : Engine) (tm : TemplateManager E.Tree) (σ : World)
    (tmpl : String) (data : Val)
    (h : (tm.templates.ExecuteTemplate E tmpl data).err = none) :
    (tm.renderContent E σ tmpl data).1 = (tm.templates.ExecuteTemplate E tmpl data).out := by
  unfold TemplateManager.renderContent
  simp [h]

theorem renderContent_of_failure (E : Engine) (tm : TemplateManager E.Tree) (σ : World)
    (tmpl : String) (data : Val)
    (h : (tm.templates.ExecuteTemplate E tmpl data).err ≠ none) :
    (tm.renderContent E σ tmpl data).1 = "" := by
  unfold TemplateManager.renderContent
  cases herr : (tm.templates.ExecuteTemplate E tmpl data).err with
  | none => exact absurd herr h
  | some e => simp [herr]

/-- With the layout present and no template of the empty name,
`RenderWithLayout` leaves Current Layout set to the layout of the call. -/
theorem RenderWithLayout_layout_after (E : Engine) (tm : TemplateManager E.Tree)
    (σ : World) (tmpl : String) (pageData : Val) (layout : String)
    (hL : layout ∈ mapKeys tm.templates.tmpl) (h0 : "" ∉ mapKeys tm.templates.tmpl) :
    (tm.RenderWithLayout E σ tmpl pageData layout).1.layout = layout := by
  unfold TemplateManager.RenderWithLayout
  rw [SetLayout_of_present tm layout hL]
  simp only [Render_fst]
  rw [SetLayout_empty_name_fails { tm with layout := layout } h0]
  simp

/-- C3, evaluated on the sample site: after
`RenderWithLayout(w, "home.gohtml", nil, "base.gohtml")` on a manager with no
layout set, the page is rendered and no error is written, and Current Layout is
`base.gohtml`, not empty. -/
theorem RenderWithLayout_layout_on_sample :
    (sampleManager.RenderWithLayout sampleEngine emptyWorld "home.gohtml" Val.nil
      "base.gohtml").1.layout = "base.gohtml" ∧
    (sampleManager.RenderWithLayout sampleEngine emptyWorld "home.gohtml" Val.nil
      "base.gohtml").2.w = [WriterOp.write "<html>Hello World</html>"] ∧
    sampleManager.layout = "" :=
  ⟨by decide, by rfl, by rfl⟩

/-- C5: for every name `L` present in the template set (names are relative
paths, so `L` is not empty), every content name `t` and page data `P`: `SetLayout(L)`
succeeds, and the `Render` with `useLayout = true` that follows calls
`ExecuteTemplate` on the response writer once, for the template named `L`, with
a map of exactly the keys `Content` and `Data`, where `Data` is `mergeData(P)`
and `Content` is the string `renderContent` produced for `t` from that same
merged map; the only other execution goes to the in-memory buffer. The bytes of
the layout execution are what reaches the writer (followed by the fixed error
when that execution fails). -/
theorem Render_after_SetLayout_uses_layout (E : Engine) (tm : TemplateManager E.Tree)
    (σ : World) (L t : String) (P : Val)
    (hL : L ∈ mapKeys tm.templates.tmpl) (hne : L ≠ "") :
    (tm.SetLayout L).1 = none ∧
    (tm.SetLayout L).2.mergeData P = tm.mergeData P ∧
    ((tm.SetLayout L).2.Render E σ t P true).2.execs =
      σ.execs ++
        [⟨Dest.buffer, t, Val.map (tm.mergeData P)⟩,
         ⟨Dest.response, L,
          Val.map [("Content",
              Val.str (tm.renderContent E σ t (Val.map (tm.mergeData P))).1),
            ("Data", Val.map (tm.mergeData P))]⟩] ∧
    (((tm.SetLayout L).2.Render E σ t P true).2.w =
        σ.w ++ [WriterOp.write (tm.templates.ExecuteTemplate E L
          (Val.map [("Content",
              Val.str (tm.renderContent E σ t (Val.map (tm.mergeData P))).1),
            ("Data", Val.map (tm.mergeData P))])).out] ∨
      ((tm.SetLayout L).2.Render E σ t P true).2.w =
        σ.w ++ [WriterOp.write (tm.templates.ExecuteTemplate E L
          (Val.map [("Content",
              Val.str (tm.renderContent E σ t (Val.map (tm.mergeData P))).1),
            ("Data", Val.map (tm.mergeData P))])).out,
          WriterOp.httpError "Error rendering layout template" 500]) := by
  rw [SetLayout_of_present tm L hL]
  have hl : ({ tm with layout := L } : TemplateManager E.Tree).layout ≠ "" := hne
  rw [Render_with_layout_eq E _ σ t P hl]
  refine ⟨rfl, rfl, ?_, ?_⟩
  · simp only [renderContent_snd]
    split <;>
      simp [World.record, World.write, World.logLine, World.httpError,
        TemplateManager.mergeData, TemplateManager.renderContent]
  · simp only [renderContent_snd]
    split
    · right
      simp [World.record, World.write, World.logLine, World.httpError,
        TemplateManager.mergeData, TemplateManager.renderContent]
    · left
      simp [World.record, World.write, World.logLine, World.httpError,
        TemplateManager.mergeData, TemplateManager.renderContent]

/-- Witness of C5 on the sample site: layout `base.gohtml`, content
`home.gohtml`, no page data. -/
theorem Render_after_SetLayout_uses_layout_witness :
    "base.gohtml" ∈ mapKeys sampleManager.templates.tmpl ∧ "base.gohtml" ≠ "" ∧
    ((sampleManager.SetLayout "base.gohtml").2.Render sampleEngine emptyWorld
      "home.gohtml" Val.nil true).2.execs =
      [⟨Dest.buffer, "home.gohtml", Val.map [("Name", Val.str "World")]⟩,
       ⟨Dest.response, "base.gohtml",
        Val.map [("Content", Val.str "Hello World"),
          ("Data", Val.map [("Name", Val.str "World")])]⟩] :=
  ⟨by decide, by decide,
   (Render_after_SetLayout_uses_layout sampleEngine sampleManager emptyWorld
     "base.gohtml" "home.gohtml" Val.nil (by decide) (by decide)).2.2.1⟩

/-- C6: round trip. When executing `t` against `mergeData(D)` succeeds, the
standalone `Render` writes to the response exactly the bytes of that execution
and no error, and the layout-mode `Render` of the same manager with a non-empty
Current Layout hands the layout a `Content` string equal to those bytes. -/
theorem Render_standalone_eq_layout_content (E : Engine) (tm : TemplateManager E.Tree)
    (σ σ' : World) (t : String) (D : Val) (hl : tm.layout ≠ "")
    (hok : (tm.templates.ExecuteTemplate E t (Val.map (tm.mergeData D))).err = none) :
    (tm.Render E σ t D false).2.w =
      σ.w ++ [WriterOp.write
        (tm.templates.ExecuteTemplate E t (Val.map (tm.mergeData D))).out] ∧
    writtenBytes ((tm.Render E σ t D false).2.w.drop σ.w.length) =
      (tm.templates.ExecuteTemplate E t (Val.map (tm.mergeData D))).out ∧
    (tm.Render E σ' t D true).2.execs =
      σ'.execs ++
        [⟨Dest.buffer, t, Val.map (tm.mergeData D)⟩,
         ⟨Dest.response, tm.layout,
          Val.map [("Content",
              Val.str (tm.templates.ExecuteTemplate E t (Val.map (tm.mergeData D))).out),
            ("Data", Val.map (tm.mergeData D))]⟩] := by
  have hw : (tm.Render E σ t D false).2.w =
      σ.w ++ [WriterOp.write
        (tm.templates.ExecuteTemplate E t (Val.map (tm.mergeData D))).out] := by
    unfold TemplateManager.Render
    simp [hok, World.record, World.write]
  refine ⟨hw, ?_, ?_⟩
  · rw [hw]
    simp [writtenBytes]
  · rw [Render_with_layout_eq E tm σ' t D hl]
    simp only [renderContent_snd, renderContent_of_success E tm σ' t _ hok]
    split <;> simp [World.record, World.write, World.logLine, World.httpError]

/-- Witness of C6 on the sample site: `home.gohtml` with page data
`Name = Page`, standalone and under layout `base.gohtml`. -/
theorem Render_standalone_eq_layout_content_witness :
    sampleManagerWithLayout.layout ≠ "" ∧
    (sampleManagerWithLayout.templates.ExecuteTemplate sampleEngine "home.gohtml"
      (Val.map (sampleManagerWithLayout.mergeData
        (Val.map [("Name", Val.str "Page")])))).err = none ∧
    (sampleManagerWithLayout.Render sampleEngine emptyWorld "home.gohtml"
      (Val.map [("Name", Val.str "Page")]) false).2.w = [WriterOp.write "Hello Page"] ∧
    (sampleManagerWithLayout.Render sampleEngine emptyWorld "home.gohtml"
      (Val.map [("Name", Val.str "Page")]) true).2.execs =
      [⟨Dest.buffer, "home.gohtml", Val.map [("Name", Val.str "Page")]⟩,
       ⟨Dest.response, "base.gohtml",
        Val.map [("Content", Val.str "Hello Page"),
          ("Data", Val.map [("Name", Val.str "Page")])]⟩] :=
  ⟨by decide, by decide,
   (Render_standalone_eq_layout_content sampleEngine sampleManagerWithLayout emptyWorld
     emptyWorld "home.gohtml" (Val.map [("Name", Val.str "Page")])
     (by decide) (by decide)).1,
   (Render_standalone_eq_layout_content sampleEngine sampleManagerWithLayout emptyWorld
     emptyWorld "home.gohtml" (Val.map [("Name", Val.str "Page")])
     (by decide) (by decide)).2.2⟩

/-- C7: in a `Render` with `useLayout = true` and a non-empty Current Layout,
when executing the inner content template fails (unknown name, or an error at
any point of the execution, whatever was written to the buffer before) and the
layout executes successfully on what it is given, the layout is executed with
`Content` equal to the empty string, its bytes are the only thing written to
the response (no error response), and nothing is logged. -/
theorem Render_inner_failure_empty_content (E : Engine) (tm : TemplateManager E.Tree)
    (σ : World) (t : String) (P : Val) (hl : tm.layout ≠ "")
    (hinner : (tm.templates.ExecuteTemplate E t (Val.map (tm.mergeData P))).err ≠ none)
    (hlayout : (tm.templates.ExecuteTemplate E tm.layout
      (Val.map [("Content", Val.str ""), ("Data", Val.map (tm.mergeData P))])).err = none) :
    (tm.Render E σ t P true).2.execs =
      σ.execs ++
        [⟨Dest.buffer, t, Val.map (tm.mergeData P)⟩,
         ⟨Dest.response, tm.layout,
          Val.map [("Content", Val.str ""), ("Data", Val.map (tm.mergeData P))]⟩] ∧
    (tm.Render E σ t P true).2.w =
      σ.w ++ [WriterOp.write (tm.templates.ExecuteTemplate E tm.layout
        (Val.map [("Content", Val.str ""), ("Data", Val.map (tm.mergeData P))])).out] ∧
    (∀ op ∈ (tm.Render E σ t P true).2.w.drop σ.w.length, op.isHttpError = false) ∧
    (tm.Render E σ t P true).2.log = σ.log := by
  rw [Render_with_layout_eq E tm σ t P hl]
  simp only [renderContent_snd, renderContent_of_failure E tm σ t _ hinner, hlayout]
  simp [World.record, World.write, WriterOp.isHttpError]

/-- Witness of C7 on the sample site: `pages/broken.gohtml` fails after writing
`partial`; the layout `base.gohtml` still renders, around empty content. -/
theorem Render_inner_failure_empty_content_witness :
    sampleManagerWithLayout.layout ≠ "" ∧
    (sampleManagerWithLayout.templates.ExecuteTemplate sampleEngine "pages/broken.gohtml"
      (Val.map (sampleManagerWithLayout.mergeData Val.nil))).out = "partial" ∧
    (sampleManagerWithLayout.templates.ExecuteTemplate sampleEngine "pages/broken.gohtml"
      (Val.map (sampleManagerWithLayout.mergeData Val.nil))).err ≠ none ∧
    (sampleManagerWithLayout.Render sampleEngine emptyWorld "pages/broken.gohtml"
      Val.nil true).2.execs =
      [⟨Dest.buffer, "pages/broken.gohtml", Val.map [("Name", Val.str "World")]⟩,
       ⟨Dest.response, "base.gohtml",
        Val.map [("Content", Val.str ""),
          ("Data", Val.map [("Name", Val.str "World")])]⟩] ∧
    (sampleManagerWithLayout.Render sampleEngine emptyWorld "pages/broken.gohtml"
      Val.nil true).2.w = [WriterOp.write "<html></html>"] :=
  ⟨by decide, by decide, by decide,
   (Render_inner_failure_empty_content sampleEngine sampleManagerWithLayout emptyWorld
     "pages/broken.gohtml" Val.nil (by decide) (by decide) (by decide)).1,
   (Render_inner_failure_empty_content sampleEngine sampleManagerWithLayout emptyWorld
     "pages/broken.gohtml" Val.nil (by decide) (by decide) (by decide)).2.1⟩

/-- C8: for every manager whose Current Layout is empty, every content name and
page data, `Render` with `useLayout = true` calls `ExecuteTemplate` not at all,
performs on the response writer exactly the one call
`http.Error(w, "Error rendering layout template", 500)`, logs one line, and
leaves the manager (Current Layout and global data included) unchanged. -/
theorem Render_no_layout_configured (E : Engine) (tm : TemplateManager E.Tree)
    (σ : World) (name : String) (pageData : Val) (hl : tm.layout = "") :
    (tm.Render E σ name pageData true).2.execs = σ.execs ∧
    (tm.Render E σ name pageData true).2.w =
      σ.w ++ [WriterOp.httpError "Error rendering layout template" 500] ∧
    (tm.Render E σ name pageData true).2.log =
      σ.log ++ ["Error rendering layout template: no layout set"] ∧
    (tm.Render E σ name pageData true).1 = tm ∧
    (tm.Render E σ name pageData true).1.layout = tm.layout ∧
    (tm.Render E σ name pageData true).1.globalData = tm.globalData := by
  unfold TemplateManager.Render
  simp [hl, World.logLine, World.httpError]

/-- Witness of C8 on the sample manager, which has no layout set. -/
theorem Render_no_layout_configured_witness :
    sampleManager.layout = "" ∧
    (sampleManager.Render sampleEngine emptyWorld "home.gohtml" Val.nil true).2.execs
      = emptyWorld.execs ∧
    (sampleManager.Render sampleEngine emptyWorld "home.gohtml" Val.nil true).2.w
      = emptyWorld.w ++ [WriterOp.httpError "Error rendering layout template" 500] :=
  ⟨by decide,
   (Render_no_layout_configured sampleEngine sampleManager emptyWorld "home.gohtml"
     Val.nil (by decide)).1,
   (Render_no_layout_configured sampleEngine sampleManager emptyWorld "home.gohtml"
     Val.nil (by decide)).2.1⟩

/-! ## The middleware -/

/-- C9: when the context has no `content` key after the downstream pipeline
has run, the handler of `ApplyLayout` returns normally having performed on the
response writer exactly the one call `c.String(500, "content not set")`; it
executes no template, logs nothing, and leaves the manager (Current Layout
included) and the context keys as the pipeline left them. -/
theorem ApplyLayout_content_not_set (E : Engine) (layout : String)
    (next : ReqState E.Tree → ReqState E.Tree) (s : ReqState E.Tree)
    (hc : mapGet (next s).keys "content" = none) :
    ∃ s', ApplyLayout E layout next s = Except.ok s' ∧
      s'.world.w = (next s).world.w ++ [WriterOp.ginString 500 "content not set"] ∧
      s'.world.execs = (next s).world.execs ∧
      s'.world.log = (next s).world.log ∧
      s'.tm = (next s).tm ∧
      s'.tm.layout = (next s).tm.layout ∧
      s'.keys = (next s).keys := by
  refine ⟨{ next s with world := (next s).world.ginString 500 "content not set" },
    ?_, rfl, rfl, rfl, rfl, rfl, rfl⟩
  unfold ApplyLayout
  simp [hc]

/-- Witness of C9: a pipeline that sets `data` only, on the sample request. -/
theorem ApplyLayout_content_not_set_witness :
    mapGet (sampleNextWithoutContent sampleRequest).keys "content" = none ∧
    ∃ s', ApplyLayout sampleEngine "base.gohtml" sampleNextWithoutContent sampleRequest
        = Except.ok s' ∧
      s'.world.w = (sampleNextWithoutContent sampleRequest).world.w ++
        [WriterOp.ginString 500 "content not set"] ∧
      s'.world.execs = (sampleNextWithoutContent sampleRequest).world.execs ∧
      s'.world.log = (sampleNextWithoutContent sampleRequest).world.log ∧
      s'.tm = (sampleNextWithoutContent sampleRequest).tm ∧
      s'.tm.layout = (sampleNextWithoutContent sampleRequest).tm.layout ∧
      s'.keys = (sampleNextWithoutContent sampleRequest).keys :=
  ⟨by rfl,
   ApplyLayout_content_not_set sampleEngine "base.gohtml" sampleNextWithoutContent
     sampleRequest (by rfl)⟩

/-! ## The template index -/

theorem indexTemplate_of_template_file (E : Engine) (fs : FS) (root : String) (v : Visit)
    (rel content : String) (tree : E.Tree)
    (herr : v.err = none) (hf : isTemplateFile fs v = true)
    (hrel : fs.rel root v.path = Except.ok rel)
    (hread : fs.readFile v.path = Except.ok content)
    (hparse : E.parseTree (fs.ToSlash rel) content = Except.ok tree) :
    indexTemplate E fs root v.path v.info v.err = (some (fs.ToSlash rel, tree), none) := by
  unfold isTemplateFile at hf
  unfold indexTemplate
  rw [herr]
  simp only [hf, if_true, hrel, hread, hparse]

theorem indexTemplate_of_other (E : Engine) (fs : FS) (root : String) (v : Visit)
    (herr : v.err = none) (hf : isTemplateFile fs v = false) :
    indexTemplate E fs root v.path v.info v.err = (none, none) := by
  unfold isTemplateFile at hf
  unfold indexTemplate
  rw [herr]
  simp only [hf, Bool.false_eq_true, if_false]

theorem AddParseTree_of_new (E : Engine) (t : Template E.Tree) (name : String)
    (tree : E.Tree) (h : name ∉ mapKeys t.tmpl) :
    (t.AddParseTree E name tree).tmpl = t.tmpl ++ [(name, tree)] := by
  unfold Template.AddParseTree
  rw [mapGet_eq_none_of_not_mem _ _ h]
  exact mapSet_of_not_mem _ _ _ h

theorem mapGet_of_mem_of_nodup {α : Type} (m : List (String × α)) (k : String) (v : α)
    (hnd : (mapKeys m).Nodup) (h : (k, v) ∈ m) : mapGet m k = some v := by
  induction m with
  | nil => simp at h
  | cons e rest ih =>
    obtain ⟨k0, v0⟩ := e
    simp only [mapKeys, List.map_cons, List.nodup_cons] at hnd
    rcases List.mem_cons.mp h with h | h
    · cases h
      simp [mapGet]
    · have hk : k ∈ mapKeys rest := List.mem_map.mpr ⟨(k, v), h, rfl⟩
      have h0 : k0 ≠ k := by
        intro hk0
        subst hk0
        exact hnd.1 hk
      simp only [mapGet, h0, if_false]
      exact ih hnd.2 h

/-- The code's `filepath.ToSlash` computes the slash-normalized form: on a host
whose separator is `/` nothing changes, on any other host every separator
becomes `/`. -/
theorem ToSlash_eq_slashNormalized (fs : FS) (path : String) :
    fs.ToSlash path = slashNormalized fs path := by
  unfold FS.ToSlash slashNormalized
  split
  · rename_i hsep
    have hid : (fun c : Char => if c = fs.separator then '/' else c) = id := by
      funext c
      by_cases hc : c = fs.separator
      · simp [hc, hsep]
      · simp [hc]
    rw [hid, List.map_id]
  · rfl

/-- A slash-normalized path holds the host separator only where that is `/`. -/
theorem separator_not_mem_slashNormalized (fs : FS) (path : String)
    (hsep : fs.separator ≠ '/') : fs.separator ∉ (slashNormalized fs path).data := by
  unfold slashNormalized
  intro hmem
  simp only [List.mem_map] at hmem
  obtain ⟨c, _, hc⟩ := hmem
  by_cases hcs : c = fs.separator
  · simp only [hcs, if_true] at hc
    exact hsep hc.symm
  · simp only [hcs, if_false] at hc

/-- The walk from a template set `t`, over error-free visits whose template
files can be read and parse, and whose names are new and pairwise distinct:
no error, and the set grows by one entry per template file, in visit order. -/
theorem walkFrom_of_wellformed (E : Engine) (fs : FS) (root : String) (vs : List Visit) :
    ∀ t : Template E.Tree,
    (∀ v ∈ vs, v.err = none) →
    (∀ v ∈ vs, isTemplateFile fs v = true →
      ∃ rel content tree, fs.rel root v.path = Except.ok rel ∧
        fs.readFile v.path = Except.ok content ∧
        E.parseTree (slashNormalized fs rel) content = Except.ok tree) →
    (mapKeys t.tmpl ++ (vs.filter (isTemplateFile fs)).map (templateName fs root)).Nodup →
    (walkFrom E fs root vs t).2 = none ∧
    mapKeys (walkFrom E fs root vs t).1.tmpl =
      mapKeys t.tmpl ++ (vs.filter (isTemplateFile fs)).map (templateName fs root) ∧
    (∀ k tree, mapGet t.tmpl k = some tree →
      mapGet (walkFrom E fs root vs t).1.tmpl k = some tree) ∧
    (∀ v ∈ vs, isTemplateFile fs v = true →
      ∃ content tree, fs.readFile v.path = Except.ok content ∧
        E.parseTree (templateName fs root v) content = Except.ok tree ∧
        mapGet (walkFrom E fs root vs t).1.tmpl (templateName fs root v) = some tree) := by
  induction vs with
  | nil =>
    intro t _ _ _
    refine ⟨rfl, by simp [walkFrom], ?_, ?_⟩
    · intro k tree h
      exact h
    · intro v hv
      simp at hv
  | cons v rest ih =>
    intro t hnoerr hfiles hnd
    have hnoerr' : ∀ u ∈ rest, u.err = none := fun u hu =>
      hnoerr u (List.mem_cons_of_mem _ hu)
    have hfiles' : ∀ u ∈ rest, isTemplateFile fs u = true →
        ∃ rel content tree, fs.rel root u.path = Except.ok rel ∧
          fs.readFile u.path = Except.ok content ∧
          E.parseTree (slashNormalized fs rel) content = Except.ok tree := fun u hu =>
      hfiles u (List.mem_cons_of_mem _ hu)
    cases hf : isTemplateFile fs v with
    | false =>
      have hstep : walkFrom E fs root (v :: rest) t = walkFrom E fs root rest t := by
        simp only [walkFrom,
          indexTemplate_of_other E fs root v (hnoerr v (List.mem_cons_self _ _)) hf]
      have hnd' : (mapKeys t.tmpl ++
          (rest.filter (isTemplateFile fs)).map (templateName fs root)).Nodup := by
        simpa [List.filter_cons, hf] using hnd
      obtain ⟨h1, h2, h3, h4⟩ := ih t hnoerr' hfiles' hnd'
      rw [hstep]
      refine ⟨h1, ?_, h3, ?_⟩
      · rw [h2]
        simp [List.filter_cons, hf]
      · intro u hu huf
        rcases List.mem_cons.mp hu with hu | hu
        · subst hu
          rw [hf] at huf
          exact absurd huf (by simp)
        · exact h4 u hu huf
    | true =>
      obtain ⟨rel, content, tree, hrel, hread, hparse⟩ :=
        hfiles v (List.mem_cons_self _ _) hf
      have hts : fs.ToSlash rel = slashNormalized fs rel :=
        ToSlash_eq_slashNormalized fs rel
      rw [← hts] at hparse
      have hname : templateName fs root v = fs.ToSlash rel := by
        simp [templateName, hrel, hts]
      have hnd0 : (mapKeys t.tmpl ++ (fs.ToSlash rel ::
          (rest.filter (isTemplateFile fs)).map (templateName fs root))).Nodup := by
        simpa [List.filter_cons, hf, hname] using hnd
      have hnew : fs.ToSlash rel ∉ mapKeys t.tmpl := by
        intro hmem
        exact (List.nodup_append.mp hnd0).2.2 hmem (List.mem_cons_self _ _)
      have hadd := AddParseTree_of_new E t (fs.ToSlash rel) tree hnew
      have hstep : walkFrom E fs root (v :: rest) t =
          walkFrom E fs root rest (t.AddParseTree E (fs.ToSlash rel) tree) := by
        simp only [walkFrom, indexTemplate_of_template_file E fs root v rel content tree
          (hnoerr v (List.mem_cons_self _ _)) hf hrel hread hparse]
      have hkeys : mapKeys (t.AddParseTree E (fs.ToSlash rel) tree).tmpl =
          mapKeys t.tmpl ++ [fs.ToSlash rel] := by
        rw [hadd]
        simp [mapKeys]
      have hnd' : (mapKeys (t.AddParseTree E (fs.ToSlash rel) tree).tmpl ++
          (rest.filter (isTemplateFile fs)).map (templateName fs root)).Nodup := by
        rw [hkeys]
        simpa using hnd0
      obtain ⟨h1, h2, h3, h4⟩ :=
        ih (t.AddParseTree E (fs.ToSlash rel) tree) hnoerr' hfiles' hnd'
      have hndt : (mapKeys (t.AddParseTree E (fs.ToSlash rel) tree).tmpl).Nodup :=
        (List.nodup_append.mp hnd').1
      rw [hstep]
      refine ⟨h1, ?_, ?_, ?_⟩
      · rw [h2, hkeys]
        simp [List.filter_cons, hf, hname]
      · intro k tr hk
        apply h3
        have hmem : k ∈ mapKeys t.tmpl := by
          by_contra hc
          rw [mapGet_eq_none_of_not_mem _ _ hc] at hk
          exact absurd hk (by simp)
        have hne : fs.ToSlash rel ≠ k := by
          intro he
          exact hnew (he ▸ hmem)
        unfold Template.AddParseTree
        rw [mapGet_eq_none_of_not_mem _ _ hnew]
        simp only []
        rw [mapGet_mapSet_other _ _ _ _ hne]
        exact hk
      · intro u hu huf
        rcases List.mem_cons.mp hu with hu | hu
        · subst hu
          refine ⟨content, tree, hread, by rw [hname]; exact hparse, ?_⟩
          rw [hname]
          apply h3
          apply mapGet_of_mem_of_nodup _ _ _ hndt
          rw [hadd]
          simp
        · exact h4 u hu huf

/-- C10: for a walk that visits entries without error, whose template files
(regular files with extension `.gohtml`) can all be made relative to the root,
read and parsed, and have pairwise distinct relative names (so for every
directory tree of such files), `indexTemplates` returns no error and a template
set whose names are exactly the slash-normalized relative paths of the
template files, one entry per file (`N` entries for `N` files), each holding
the tree parsed from that file; the other entries add nothing. Slash-normalized:
each name is the relative path with every host separator turned into `/`, so
that on a host whose separator is not `/` no name holds the separator. -/
theorem indexTemplates_one_entry_per_template_file (E : Engine) (fs : FS) (root : String)
    (hnoerr : ∀ v ∈ fs.walk root, v.err = none)
    (hfiles : ∀ v ∈ fs.walk root, isTemplateFile fs v = true →
      ∃ rel content tree, fs.rel root v.path = Except.ok rel ∧
        fs.readFile v.path = Except.ok content ∧
        E.parseTree (slashNormalized fs rel) content = Except.ok tree)
    (hdistinct :
      (((fs.walk root).filter (isTemplateFile fs)).map (templateName fs root)).Nodup) :
    (indexTemplates E fs root).2 = none ∧
    mapKeys (indexTemplates E fs root).1.tmpl =
      ((fs.walk root).filter (isTemplateFile fs)).map (templateName fs root) ∧
    (indexTemplates E fs root).1.tmpl.length =
      ((fs.walk root).filter (isTemplateFile fs)).length ∧
    (mapKeys (indexTemplates E fs root).1.tmpl).Nodup ∧
    (∀ v ∈ fs.walk root, isTemplateFile fs v = true →
      ∃ content tree, fs.readFile v.path = Except.ok content ∧
        E.parseTree (templateName fs root v) content = Except.ok tree ∧
        (indexTemplates E fs root).1.Lookup (templateName fs root v) = some tree) ∧
    (∀ v ∈ fs.walk root, isTemplateFile fs v = true →
      ∃ rel, fs.rel root v.path = Except.ok rel ∧
        templateName fs root v =
          String.mk (rel.data.map (fun c => if c = fs.separator then '/' else c)) ∧
        (templateName fs root v).data.length = rel.data.length) ∧
    (∀ k ∈ mapKeys (indexTemplates E fs root).1.tmpl,
      fs.separator ≠ '/' → fs.separator ∉ k.data) := by
  have hnd : (mapKeys (Template.New "" : Template E.Tree).tmpl ++
      ((fs.walk root).filter (isTemplateFile fs)).map (templateName fs root)).Nodup := by
    simpa [Template.New, mapKeys] using hdistinct
  obtain ⟨h1, h2, _, h4⟩ :=
    walkFrom_of_wellformed E fs root (fs.walk root) (Template.New "") hnoerr hfiles hnd
  have hkeys : mapKeys (indexTemplates E fs root).1.tmpl =
      ((fs.walk root).filter (isTemplateFile fs)).map (templateName fs root) := by
    unfold indexTemplates
    rw [h2]
    simp [Template.New, mapKeys]
  have hnorm : ∀ v ∈ fs.walk root, isTemplateFile fs v = true →
      ∃ rel, fs.rel root v.path = Except.ok rel ∧
        templateName fs root v = slashNormalized fs rel := by
    intro v hv hf
    obtain ⟨rel, _, _, hrel, _, _⟩ := hfiles v hv hf
    exact ⟨rel, hrel, by simp [templateName, hrel]⟩
  refine ⟨h1, hkeys, ?_, ?_, h4, ?_, ?_⟩
  · have hlen := congrArg List.length hkeys
    simpa [mapKeys] using hlen
  · rw [hkeys]
    exact hdistinct
  · intro v hv hf
    obtain ⟨rel, hrel, hname⟩ := hnorm v hv hf
    refine ⟨rel, hrel, by rw [hname]; rfl, ?_⟩
    rw [hname]
    simp [slashNormalized]
  · intro k hk hsep
    rw [hkeys] at hk
    obtain ⟨v, hv, hvk⟩ := List.mem_map.mp hk
    obtain ⟨hvw, hvf⟩ := List.mem_filter.mp hv
    obtain ⟨rel, _, hname⟩ := hnorm v hvw hvf
    rw [← hvk, hname]
    exact separator_not_mem_slashNormalized fs rel hsep

/-- Every template file of the sample tree can be made relative, read and
parsed. -/
theorem sampleFS_template_files_parse :
    ∀ v ∈ sampleFS.walk "web/templates", isTemplateFile sampleFS v = true →
      ∃ rel content tree, sampleFS.rel "web/templates" v.path = Except.ok rel ∧
        sampleFS.readFile v.path = Except.ok content ∧
        sampleEngine.parseTree (slashNormalized sampleFS rel) content = Except.ok tree := by
  intro v hv hf
  have hw : sampleFS.walk "web/templates" =
      [⟨"web/templates", ⟨true⟩, none⟩,
       ⟨"web/templates/base.gohtml", ⟨false⟩, none⟩,
       ⟨"web/templates/home.gohtml", ⟨false⟩, none⟩,
       ⟨"web/templates/pages", ⟨true⟩, none⟩,
       ⟨"web/templates/pages/broken.gohtml", ⟨false⟩, none⟩,
       ⟨"web/templates/readme.txt", ⟨false⟩, none⟩] := by rfl
  rw [hw] at hv
  simp only [List.mem_cons, List.mem_singleton, List.not_mem_nil, or_false] at hv
  rcases hv with h | h | h | h | h | h <;> subst h
  · exact absurd hf (by decide)
  · exact ⟨"base.gohtml", "<html>|.Content|</html>",
      [Instr.text "<html>", Instr.field "Content", Instr.text "</html>"],
      by rfl, by rfl, by rfl⟩
  · exact ⟨"home.gohtml", "Hello |.Name", [Instr.text "Hello ", Instr.field "Name"],
      by rfl, by rfl, by rfl⟩
  · exact absurd hf (by decide)
  · exact ⟨"pages/broken.gohtml", "partial|!|rest",
      [Instr.text "partial", Instr.fail "execution failed", Instr.text "rest"],
      by rfl, by rfl, by rfl⟩
  · exact absurd hf (by decide)

/-- Every template file of the sample tree with separator `\` can be made
relative, read and parsed under its slash-normalized name. -/
theorem sampleWindowsFS_template_files_parse :
    ∀ v ∈ sampleWindowsFS.walk "web\\templates", isTemplateFile sampleWindowsFS v = true →
      ∃ rel content tree,
        sampleWindowsFS.rel "web\\templates" v.path = Except.ok rel ∧
        sampleWindowsFS.readFile v.path = Except.ok content ∧
        sampleEngine.parseTree (slashNormalized sampleWindowsFS rel) content
          = Except.ok tree := by
  intro v hv hf
  have hw : sampleWindowsFS.walk "web\\templates" =
      [⟨"web\\templates", ⟨true⟩, none⟩,
       ⟨"web\\templates\\base.gohtml", ⟨false⟩, none⟩,
       ⟨"web\\templates\\notes.txt", ⟨false⟩, none⟩,
       ⟨"web\\templates\\pages", ⟨true⟩, none⟩,
       ⟨"web\\templates\\pages\\about.gohtml", ⟨false⟩, none⟩,
       ⟨"web\\templates\\pages\\sub", ⟨true⟩, none⟩,
       ⟨"web\\templates\\pages\\sub\\deep.gohtml", ⟨false⟩, none⟩] := by rfl
  rw [hw] at hv
  simp only [List.mem_cons, List.mem_singleton, List.not_mem_nil, or_false] at hv
  rcases hv with h | h | h | h | h | h | h <;> subst h
  · exact absurd hf (by decide)
  · exact ⟨"base.gohtml", "<html>|.Content|</html>",
      [Instr.text "<html>", Instr.field "Content", Instr.text "</html>"],
      by rfl, by rfl, by rfl⟩
  · exact absurd hf (by decide)
  · exact absurd hf (by decide)
  · exact ⟨"pages\\about.gohtml", "About |.Name",
      [Instr.text "About ", Instr.field "Name"], by rfl, by rfl, by rfl⟩
  · exact absurd hf (by decide)
  · exact ⟨"pages\\sub\\deep.gohtml", "deep", [Instr.text "deep"],
      by rfl, by rfl, by rfl⟩

/-- Witness of C10. On the sample tree with separator `\`: three template
files below the root, two of them in subdirectories, and four other entries;
the names come out with `/`. On the sample Unix tree: three template files and
three other entries. -/
theorem indexTemplates_one_entry_per_template_file_witness :
    ((∀ v ∈ sampleWindowsFS.walk "web\\templates", v.err = none) ∧
    (((sampleWindowsFS.walk "web\\templates").filter
      (isTemplateFile sampleWindowsFS)).map
      (templateName sampleWindowsFS "web\\templates")).Nodup ∧
    ((sampleWindowsFS.walk "web\\templates").filter
      (isTemplateFile sampleWindowsFS)).length = 3 ∧
    (sampleWindowsFS.walk "web\\templates").length = 7 ∧
    (indexTemplates sampleEngine sampleWindowsFS "web\\templates").2 = none ∧
    mapKeys (indexTemplates sampleEngine sampleWindowsFS "web\\templates").1.tmpl =
      ["base.gohtml", "pages/about.gohtml", "pages/sub/deep.gohtml"] ∧
    (indexTemplates sampleEngine sampleWindowsFS "web\\templates").1.tmpl.length = 3 ∧
    (∀ k ∈ mapKeys (indexTemplates sampleEngine sampleWindowsFS "web\\templates").1.tmpl,
      sampleWindowsFS.separator ≠ '/' → sampleWindowsFS.separator ∉ k.data)) ∧
    ((∀ v ∈ sampleFS.walk "web/templates", v.err = none) ∧
    (((sampleFS.walk "web/templates").filter (isTemplateFile sampleFS)).map
      (templateName sampleFS "web/templates")).Nodup ∧
    ((sampleFS.walk "web/templates").filter (isTemplateFile sampleFS)).length = 3 ∧
    (sampleFS.walk "web/templates").length = 6 ∧
    (indexTemplates sampleEngine sampleFS "web/templates").2 = none ∧
    mapKeys (indexTemplates sampleEngine sampleFS "web/templates").1.tmpl =
      ["base.gohtml", "home.gohtml", "pages/broken.gohtml"] ∧
    (indexTemplates sampleEngine sampleFS "web/templates").1.tmpl.length = 3) :=
  ⟨⟨by decide, by decide, by decide, by decide,
    (indexTemplates_one_entry_per_template_file sampleEngine sampleWindowsFS
      "web\\templates" (by decide) sampleWindowsFS_template_files_parse (by decide)).1,
    (indexTemplates_one_entry_per_template_file sampleEngine sampleWindowsFS
      "web\\templates" (by decide) sampleWindowsFS_template_files_parse (by decide)).2.1,
    (indexTemplates_one_entry_per_template_file sampleEngine sampleWindowsFS
      "web\\templates" (by decide) sampleWindowsFS_template_files_parse
      (by decide)).2.2.1,
    (indexTemplates_one_entry_per_template_file sampleEngine sampleWindowsFS
      "web\\templates" (by decide) sampleWindowsFS_template_files_parse
      (by decide)).2.2.2.2.2.2⟩,
   ⟨by decide, by decide, by decide, by decide,
    (indexTemplates_one_entry_per_template_file sampleEngine sampleFS "web/templates"
      (by decide) sampleFS_template_files_parse (by decide)).1,
    (indexTemplates_one_entry_per_template_file sampleEngine sampleFS "web/templates"
      (by decide) sampleFS_template_files_parse (by decide)).2.1,
    (indexTemplates_one_entry_per_template_file sampleEngine sampleFS "web/templates"
      (by decide) sampleFS_template_files_parse (by decide)).2.2.1⟩⟩

/-! ## Names of an indexed template set are never empty -/

theorem ToSlash_ne_empty (fs : FS) (r : String) (h : r ≠ "") : fs.ToSlash r ≠ "" := by
  unfold FS.ToSlash
  split
  · exact h
  · intro he
    apply h
    have hd : (String.mk (r.data.map
        (fun c => if c = fs.separator then '/' else c))).data = ("" : String).data := by
      rw [he]
    have hnil : r.data = [] := by simpa using hd
    cases r with
    | mk d =>
      simp only at hnil
      subst hnil
      rfl

theorem indexTemplate_name_ne_empty (E : Engine) (fs : FS) (root name : String)
    (info : FileInfo) (err : Option String)
    (hrel : ∀ p r, fs.rel root p = Except.ok r → r ≠ "")
    (n : String) (tree : E.Tree) (e : Option String)
    (h : indexTemplate E fs root name info err = (some (n, tree), e)) : n ≠ "" := by
  unfold indexTemplate at h
  cases err with
  | some e0 => simp at h
  | none =>
    simp only at h
    by_cases hf : (!info.isDir && fs.Ext name = ".gohtml") = true
    · simp only [hf, if_true] at h
      cases hr : fs.rel root name with
      | error e1 => simp [hr] at h
      | ok rel =>
        simp only [hr] at h
        cases hread : fs.readFile name with
        | error e2 => simp [hread] at h
        | ok content =>
          simp only [hread] at h
          cases hp : E.parseTree (fs.ToSlash rel) content with
          | error e3 => simp [hp] at h
          | ok tr =>
            simp only [hp, Prod.mk.injEq, Option.some.injEq] at h
            rw [← h.1.1]
            exact ToSlash_ne_empty fs rel (hrel name rel hr)
    · simp only [hf] at h
      simp at h

theorem mem_mapKeys_AddParseTree (E : Engine) (t : Template E.Tree) (name : String)
    (tree : E.Tree) (k : String) (h : k ∈ mapKeys (t.AddParseTree E name tree).tmpl) :
    k = name ∨ k ∈ mapKeys t.tmpl := by
  unfold Template.AddParseTree at h
  cases hg : mapGet t.tmpl name with
  | none =>
    simp only [hg] at h
    exact (mem_mapKeys_mapSet _ _ _ _).mp h
  | some old =>
    simp only [hg] at h
    by_cases he : E.isEmptyTree tree = true
    · simp only [he, if_true] at h
      exact Or.inr h
    · simp only [he] at h
      exact (mem_mapKeys_mapSet _ _ _ _).mp h

theorem walkFrom_names_ne_empty (E : Engine) (fs : FS) (root : String)
    (hrel : ∀ p r, fs.rel root p = Except.ok r → r ≠ "") (vs : List Visit) :
    ∀ t : Template E.Tree, "" ∉ mapKeys t.tmpl →
      "" ∉ mapKeys (walkFrom E fs root vs t).1.tmpl := by
  induction vs with
  | nil =>
    intro t ht
    exact ht
  | cons v rest ih =>
    intro t ht
    unfold walkFrom
    cases hi : indexTemplate E fs root v.path v.info v.err with
    | mk res e =>
      cases res with
      | some tmpl =>
        simp only
        apply ih
        intro hmem
        rcases mem_mapKeys_AddParseTree E t tmpl.1 tmpl.2 "" hmem with h | h
        · exact indexTemplate_name_ne_empty E fs root v.path v.info v.err hrel
            tmpl.1 tmpl.2 e hi h.symm
        · exact ht h
      | none =>
        cases e with
        | some e0 => exact ht
        | none => exact ih t ht

/-- Whatever the walk meets, a template set built by `indexTemplates` holds no
template of the empty name, as relative paths are never empty
(`filepath.Rel` returns `.` for the root itself). -/
theorem indexTemplates_names_ne_empty (E : Engine) (fs : FS) (root : String)
    (hrel : ∀ p r, fs.rel root p = Except.ok r → r ≠ "") :
    "" ∉ mapKeys (indexTemplates E fs root).1.tmpl :=
  walkFrom_names_ne_empty E fs root hrel (fs.walk root) (Template.New "")
    (by simp [Template.New, mapKeys])

/-- On every manager built by `NewTemplateManager`, `SetLayout("")` returns the
error `template  not found` and leaves Current Layout as it is; and after a
`RenderWithLayout` with a layout of the set, Current Layout is that layout. -/
theorem NewTemplateManager_layout_never_cleared (E : Engine) (fs : FS) (webDir : String)
    (globalData : GoMap) (tm : TemplateManager E.Tree)
    (hrel : ∀ p r, fs.rel (fs.join webDir "templates") p = Except.ok r → r ≠ "")
    (hnew : NewTemplateManager E fs webDir globalData = Except.ok tm) :
    (∀ cur : String, ({ tm with layout := cur } : TemplateManager E.Tree).SetLayout ""
        = (some "template  not found", { tm with layout := cur })) ∧
    (∀ (σ : World) (tmpl : String) (pageData : Val) (layout : String),
        layout ∈ mapKeys tm.templates.tmpl →
        (tm.RenderWithLayout E σ tmpl pageData layout).1.layout = layout) := by
  have hnames : "" ∉ mapKeys tm.templates.tmpl := by
    have h0 := indexTemplates_names_ne_empty E fs (fs.join webDir "templates") hrel
    unfold NewTemplateManager at hnew
    cases hi : indexTemplates E fs (fs.join webDir "templates") with
    | mk t e =>
      rw [hi] at hnew h0
      cases e with
      | some e0 => simp at hnew
      | none =>
        simp only [Except.ok.injEq] at hnew
        rw [← hnew]
        exact h0
  refine ⟨?_, ?_⟩
  · intro cur
    exact SetLayout_empty_name_fails _ hnames
  · intro σ tmpl pageData layout hL
    exact RenderWithLayout_layout_after E tm σ tmpl pageData layout hL hnames

end Comper
